import Mathlib

/-!
Verification development for `src/multilingual_translator.py`, a small Flask
application that detects the language of an input text and translates it into a
set of selected target languages through the DeepL client.

The Python module is shallowly embedded below.  External collaborators are
modelled as function parameters: the langdetect `detect` call becomes a
`Detector` (returning `none` when the library raises), and the DeepL client
becomes a `Provider` (returning `Except.error` when `translate_text` raises).
Python dicts over the five language codes become association lists, and the
iteration order of the Python set `final_lang_codes` — which CPython leaves
unspecified — is passed in as an explicit `order` list, constrained in the
theorems to enumerate exactly `set(target_langs) ∪ {detected}`.
To settle claims about which collaborator calls occur, the embedding also
records an instrumentation trace (whether `detect` ran, and the exact argument
list of every `translate_text` call); the trace is bookkeeping alongside the
translated values and does not alter them.
-/

/-- Table `TARGET_LANGUAGES` (lines 13–19): the supported-language catalog, mapping
each language code to its display label. -/
def TARGET_LANGUAGES : List (String × String) :=
  [("ja", "🇯🇵 日本語"), ("zh", "🇨🇳 中国語"), ("vi", "🇻🇳 ベトナム語"),
   ("en", "🇺🇸 英語"), ("ko", "🇰🇷 韓国語")]

/-- Table `DEEPL_TARGETS` (lines 23–30): the provider code map from catalog codes to
DeepL target codes. -/
def DEEPL_TARGETS : List (String × String) :=
  [("ja", "JA"), ("zh", "ZH"), ("vi", "VI"), ("en", "EN-US"), ("ko", "KO")]

/-- A failure raised by `translator.translate_text`: `isDeepL` distinguishes
`deepl.exceptions.DeepLException` (line 100) from any other exception
(line 103); `detail` is the string rendering of the exception `{e}`. -/
structure ProviderError where
  isDeepL : Bool
  detail : String
  deriving DecidableEq

/-- The Translation Provider collaborator: `translator.translate_text(text,
source_lang=…, target_lang=…)`.  A normal return is `Except.ok` of the
translated text; a raised exception is `Except.error`. -/
abbrev Provider : Type := String → Option String → String → Except ProviderError String

/-- The Detector collaborator: the langdetect call `detect(text)`.  `none` models the
call raising (the bare `except` at line 61). -/
abbrev Detector : Type := String → Option String

/-- One recorded call to `translator.translate_text` (lines 94–98): the text,
the `source_lang` argument (`DEEPL_TARGETS.get(detected_lang_base)`), the
catalog code being translated to, and the `target_lang` argument. -/
structure ProviderCall where
  text : String
  sourceLang : Option String
  targetCode : String
  targetLang : String
  deriving DecidableEq

/-- The error message built at lines 100–105 from a raised provider
exception. -/
def providerErrorMessage (e : ProviderError) : String :=
  if e.isDeepL then "エラー: DeepL翻訳中に問題が発生しました - " ++ e.detail
  else "エラー: 翻訳処理中に予期せぬエラーが発生しました - " ++ e.detail

/-- Lines 82–106: the `for target_code in final_lang_codes` loop.
`acc` is the `translation_results` dict built so far and `cs` the provider
calls already made.  Returns `(some results, detected, calls)` on normal
completion (line 107) and `(none, error message, calls)` when a provider call
raises (lines 100–105). -/
def translateLoop (provider : Provider) (text detected : String) :
    List String → List (String × String) → List ProviderCall →
      Option (List (String × String)) × String × List ProviderCall
  | [], acc, cs => (some acc, detected, cs)
  | c :: rest, acc, cs =>
    if c = detected then
      translateLoop provider text detected rest (acc ++ [(c, text)]) cs
    else
      match DEEPL_TARGETS.lookup c with
      | none => translateLoop provider text detected rest acc cs
      | some dt =>
        match provider text (DEEPL_TARGETS.lookup detected) dt with
        | Except.ok t =>
          translateLoop provider text detected rest (acc ++ [(c, t)])
            (cs ++ [⟨text, DEEPL_TARGETS.lookup detected, c, dt⟩])
        | Except.error e =>
          (none, providerErrorMessage e, cs ++ [⟨text, DEEPL_TARGETS.lookup detected, c, dt⟩])

/-- Lines 59–63: `detected_lang_base`, defaulting to `'ja'` when `detect`
raises. -/
def detectedLang (detect : Detector) (text : String) : String :=
  (detect text).getD "ja"

/-- The value of `translate_message`, plus the instrumentation trace. `result`
and `second` are the two components of the Python return value
(`translation_results` dict or `None`, and the detected code or error
string). -/
structure TMOutput where
  result : Option (List (String × String))
  second : String
  detectorCalled : Bool
  providerCalls : List ProviderCall
  deriving DecidableEq

/-- Lines 48–107: `translate_message(text, target_langs)`.  `translator` is
the module-level DeepL client (`none` when initialization failed, lines
33–42); `order` is the iteration order of the set `final_lang_codes` built at
lines 75–79 (see module comment). -/
def translate_message (translator : Option Provider) (detect : Detector)
    (order : List String) (text : String) : TMOutput :=
  match translator with
  | none => ⟨none, "エラー: DeepL API認証キーが正しく設定されていません。", false, []⟩
  | some provider =>
    let detected := detectedLang detect text
    if (TARGET_LANGUAGES.lookup detected).isSome then
      let r := translateLoop provider text detected order [] []
      ⟨r.1, r.2.1, true, r.2.2⟩
    else
      ⟨none, "エラー: 検出された言語 (" ++ detected ++ ") はサポートされていません。", true, []⟩

/-- Constant `OUTPUT_ORDER` (line 122): the fixed display order of the copy block. -/
def OUTPUT_ORDER : List String := ["ja", "zh", "vi", "en", "ko"]

/-- Lines 146–154: the loop accumulating `output_lines` for the copy block;
`acc` is the list built so far. -/
def buildOutputLines (results : List (String × String)) (detected : String) :
    List String → List String → List String
  | [], acc => acc
  | c :: rest, acc =>
    match results.lookup c with
    | none => buildOutputLines results detected rest acc
    | some t =>
      let label :=
        if c = detected then (TARGET_LANGUAGES.lookup c).getD "" ++ " (原文):"
        else (TARGET_LANGUAGES.lookup c).getD "" ++ ":"
      buildOutputLines results detected rest (acc ++ [label ++ "\n" ++ t])

/-- Lines 146–157: the assembled copy block `full_output =
"\n".join(output_lines)`. -/
def full_output (results : List (String × String)) (detected : String) : String :=
  String.intercalate "\n" (buildOutputLines results detected OUTPUT_ORDER [])

/-- The Python test `s.startswith(pre)` (line 142), embedded over the character
data. -/
def strStartsWith (s pre : String) : Bool :=
  pre.data.isPrefixOf s.data

/-- The Python call `s.strip()`: drop leading and trailing whitespace. -/
def pyStrip (s : String) : String :=
  ⟨((s.data.dropWhile Char.isWhitespace).reverse.dropWhile Char.isWhitespace).reverse⟩

/-- Python truthiness of `input_text and input_text.strip()` (line 136):
`input_text` may be absent from the form (`None`). -/
def truthyText : Option String → Bool
  | none => false
  | some t => !(t == "") && !(pyStrip t == "")

/-- Python truthiness of `translation_results` at line 144 (`None` and the
empty dict are falsy). -/
def truthyResult : Option (List (String × String)) → Bool
  | none => false
  | some m => !m.isEmpty

/-- The template context assembled by `index` (lines 160–170), plus the
instrumentation trace of the request. -/
structure IndexOutput where
  results : Option (List (String × String))
  original_text : Option String
  detected_lang : Option String
  error_message : Option String
  fullOutput : String
  selected_langs : List String
  detectorCalled : Bool
  providerCalls : List ProviderCall
  deriving DecidableEq

/-- Lines 125–170: the POST branch of the `index` handler.  `input_text` is
`request.form.get('input_text')` and `target_langs` is
`request.form.getlist('target_langs')`. -/
def indexPost (translator : Option Provider) (detect : Detector) (order : List String)
    (input_text : Option String) (target_langs : List String) : IndexOutput :=
  if target_langs.isEmpty then
    ⟨none, none, none, some "エラー: 翻訳するターゲット言語が一つも選択されていません。",
      "", target_langs, false, []⟩
  else if truthyText input_text then
    let t := input_text.getD ""
    let out := translate_message translator detect order t
    if strStartsWith out.second "エラー:" then
      ⟨out.result, some t, some out.second, some out.second, "", target_langs,
        out.detectorCalled, out.providerCalls⟩
    else if truthyResult out.result then
      ⟨out.result, some t, some out.second, none,
        full_output (out.result.getD []) out.second, target_langs,
        out.detectorCalled, out.providerCalls⟩
    else
      ⟨out.result, some t, some out.second, none, "", target_langs,
        out.detectorCalled, out.providerCalls⟩
  else
    ⟨none, none, none, none, "", target_langs, false, []⟩

/-- Predicate stating that `order` is a duplicate-free enumeration of the Python set
`final_lang_codes = set(target_langs) ∪ {detected}` (lines 75–79). -/
def EnumeratesWorkingSet (order target_langs : List String) (detected : String) : Prop :=
  order.Nodup ∧ (∀ c ∈ order, c ∈ target_langs ∨ c = detected) ∧
    (∀ c ∈ target_langs, c ∈ order) ∧ detected ∈ order

/-- A provider that always succeeds, returning the fixed text `"TX"`. -/
def okProvider : Provider := fun _ _ _ => Except.ok "TX"

/-- A provider that always raises a `DeepLException` with detail `"boom"`. -/
def failProvider : Provider := fun _ _ _ => Except.error ⟨true, "boom"⟩

/-- A detector that always reports Japanese. -/
def jaDetect : Detector := fun _ => some "ja"

/-- A detector that always raises (text too short or ambiguous). -/
def noDetect : Detector := fun _ => none

/-- A detector that always reports the simplified-Chinese variant code, as
langdetect does for Chinese text. -/
def zhcnDetect : Detector := fun _ => some "zh-cn"

/-! ### Helper lemmas on association-list lookup -/

theorem lookup_cons_self (k x : String) (l : List (String × String)) :
    List.lookup k ((k, x) :: l) = some x := by
  simp [List.lookup]

theorem lookup_cons_ne (k c x : String) (l : List (String × String)) (h : k ≠ c) :
    List.lookup k ((c, x) :: l) = List.lookup k l := by
  have hb : (k == c) = false := beq_eq_false_iff_ne.mpr h
  simp [List.lookup, hb]

theorem lookup_append_some (l₁ l₂ : List (String × String)) (k v : String)
    (h : l₁.lookup k = some v) : (l₁ ++ l₂).lookup k = some v := by
  induction l₁ with
  | nil => simp [List.lookup] at h
  | cons a l ih =>
    obtain ⟨c, x⟩ := a
    by_cases hk : k = c
    · subst hk
      rw [lookup_cons_self] at h
      simpa [lookup_cons_self] using h
    · rw [lookup_cons_ne _ _ _ _ hk] at h
      rw [List.cons_append, lookup_cons_ne _ _ _ _ hk]
      exact ih h

theorem lookup_append_none (l₁ l₂ : List (String × String)) (k : String)
    (h : l₁.lookup k = none) : (l₁ ++ l₂).lookup k = l₂.lookup k := by
  induction l₁ with
  | nil => simp
  | cons a l ih =>
    obtain ⟨c, x⟩ := a
    by_cases hk : k = c
    · subst hk; rw [lookup_cons_self] at h; cases h
    · rw [lookup_cons_ne _ _ _ _ hk] at h
      rw [List.cons_append, lookup_cons_ne _ _ _ _ hk]
      exact ih h

theorem lookup_append_isSome (l₁ l₂ : List (String × String)) (k : String) :
    ((l₁ ++ l₂).lookup k).isSome = true ↔
      (l₁.lookup k).isSome = true ∨ (l₂.lookup k).isSome = true := by
  cases h : l₁.lookup k with
  | none => rw [lookup_append_none _ _ _ h]; simp
  | some v => rw [lookup_append_some _ _ _ _ h]; simp

theorem lookup_singleton_isSome (c t k : String) :
    (([(c, t)] : List (String × String)).lookup k).isSome = true ↔ k = c := by
  by_cases hk : k = c
  · subst hk; rw [lookup_cons_self]; simp
  · rw [lookup_cons_ne _ _ _ _ hk]; simp [List.lookup, hk]

/-! ### Helper lemmas on the language tables -/

theorem lookup_TL_cases (c : String) (h : (TARGET_LANGUAGES.lookup c).isSome = true) :
    c = "ja" ∨ c = "zh" ∨ c = "vi" ∨ c = "en" ∨ c = "ko" := by
  by_cases h1 : c = "ja"
  · exact Or.inl h1
  by_cases h2 : c = "zh"
  · exact Or.inr (Or.inl h2)
  by_cases h3 : c = "vi"
  · exact Or.inr (Or.inr (Or.inl h3))
  by_cases h4 : c = "en"
  · exact Or.inr (Or.inr (Or.inr (Or.inl h4)))
  by_cases h5 : c = "ko"
  · exact Or.inr (Or.inr (Or.inr (Or.inr h5)))
  exfalso
  rw [TARGET_LANGUAGES, lookup_cons_ne _ _ _ _ h1, lookup_cons_ne _ _ _ _ h2,
    lookup_cons_ne _ _ _ _ h3, lookup_cons_ne _ _ _ _ h4, lookup_cons_ne _ _ _ _ h5] at h
  simp [List.lookup] at h

theorem lookup_DT_eq_lookup_TL_isSome (k : String) :
    ((DEEPL_TARGETS.lookup k).isSome = true) ↔ ((TARGET_LANGUAGES.lookup k).isSome = true) := by
  constructor
  · intro h
    by_cases h1 : k = "ja"
    · subst h1; decide
    by_cases h2 : k = "zh"
    · subst h2; decide
    by_cases h3 : k = "vi"
    · subst h3; decide
    by_cases h4 : k = "en"
    · subst h4; decide
    by_cases h5 : k = "ko"
    · subst h5; decide
    exfalso
    rw [DEEPL_TARGETS, lookup_cons_ne _ _ _ _ h1, lookup_cons_ne _ _ _ _ h2,
      lookup_cons_ne _ _ _ _ h3, lookup_cons_ne _ _ _ _ h4, lookup_cons_ne _ _ _ _ h5] at h
    simp [List.lookup] at h
  · intro h
    rcases lookup_TL_cases k h with h' | h' | h' | h' | h' <;> subst h' <;> decide

/-! ### Structural lemmas about the translation loop -/

theorem translateLoop_some_second (p : Provider) (text d : String) (l : List String) :
    ∀ acc cs r s cs', translateLoop p text d l acc cs = (some r, s, cs') → s = d := by
  induction l with
  | nil =>
    intro acc cs r s cs' h
    simp [translateLoop] at h
    exact h.2.1.symm
  | cons c rest ih =>
    intro acc cs r s cs' h
    simp only [translateLoop] at h
    by_cases hc : c = d
    · rw [if_pos hc] at h
      exact ih _ _ _ _ _ h
    · rw [if_neg hc] at h
      cases hDT : DEEPL_TARGETS.lookup c with
      | none =>
        simp only [hDT] at h
        exact ih _ _ _ _ _ h
      | some dt =>
        simp only [hDT] at h
        cases hp : p text (DEEPL_TARGETS.lookup d) dt with
        | ok t =>
          simp only [hp] at h
          exact ih _ _ _ _ _ h
        | error e =>
          simp only [hp] at h
          simp at h

theorem translateLoop_some_preserves (p : Provider) (text d : String) (l : List String) :
    ∀ acc cs r s cs', translateLoop p text d l acc cs = (some r, s, cs') →
      ∀ k v, acc.lookup k = some v → r.lookup k = some v := by
  induction l with
  | nil =>
    intro acc cs r s cs' h k v hk
    simp [translateLoop] at h
    rw [← h.1]
    exact hk
  | cons c rest ih =>
    intro acc cs r s cs' h k v hk
    simp only [translateLoop] at h
    by_cases hc : c = d
    · rw [if_pos hc] at h
      exact ih _ _ _ _ _ h _ _ (lookup_append_some _ _ _ _ hk)
    · rw [if_neg hc] at h
      cases hDT : DEEPL_TARGETS.lookup c with
      | none =>
        simp only [hDT] at h
        exact ih _ _ _ _ _ h _ _ hk
      | some dt =>
        simp only [hDT] at h
        cases hp : p text (DEEPL_TARGETS.lookup d) dt with
        | ok t =>
          simp only [hp] at h
          exact ih _ _ _ _ _ h _ _ (lookup_append_some _ _ _ _ hk)
        | error e =>
          simp only [hp] at h
          simp at h

theorem translateLoop_detected_entry (p : Provider) (text d : String) (l : List String) :
    ∀ acc cs r s cs', translateLoop p text d l acc cs = (some r, s, cs') →
      acc.lookup d = none → d ∈ l → r.lookup d = some text := by
  induction l with
  | nil =>
    intro acc cs r s cs' h hacc hmem
    cases hmem
  | cons c rest ih =>
    intro acc cs r s cs' h hacc hmem
    simp only [translateLoop] at h
    by_cases hc : c = d
    · rw [if_pos hc] at h
      subst hc
      refine translateLoop_some_preserves p text c rest _ _ _ _ _ h c text ?_
      rw [lookup_append_none _ _ _ hacc, lookup_cons_self]
    · rw [if_neg hc] at h
      have hd : d ∈ rest := by
        rcases List.mem_cons.mp hmem with h' | h'
        · exact absurd h'.symm hc
        · exact h'
      cases hDT : DEEPL_TARGETS.lookup c with
      | none =>
        simp only [hDT] at h
        exact ih _ _ _ _ _ h hacc hd
      | some dt =>
        simp only [hDT] at h
        cases hp : p text (DEEPL_TARGETS.lookup d) dt with
        | ok t =>
          simp only [hp] at h
          refine ih _ _ _ _ _ h ?_ hd
          rw [lookup_append_none _ _ _ hacc, lookup_cons_ne _ _ _ _ (fun he => hc he.symm)]
          simp [List.lookup]
        | error e =>
          simp only [hp] at h
          simp at h

theorem translateLoop_some_keys (p : Provider) (text d : String) (l : List String) :
    ∀ acc cs r s cs', translateLoop p text d l acc cs = (some r, s, cs') →
      ∀ k, (r.lookup k).isSome = true ↔
        ((acc.lookup k).isSome = true ∨
          (k ∈ l ∧ (k = d ∨ (DEEPL_TARGETS.lookup k).isSome = true))) := by
  induction l with
  | nil =>
    intro acc cs r s cs' h k
    simp [translateLoop] at h
    rw [← h.1]
    simp
  | cons c rest ih =>
    intro acc cs r s cs' h k
    simp only [translateLoop] at h
    by_cases hc : c = d
    · rw [if_pos hc] at h
      have := ih _ _ _ _ _ h k
      rw [this, lookup_append_isSome, lookup_singleton_isSome]
      subst hc
      constructor
      · rintro ((hk | hk) | ⟨hk1, hk2⟩)
        · exact Or.inl hk
        · exact Or.inr ⟨by simp [hk], Or.inl hk⟩
        · exact Or.inr ⟨List.mem_cons_of_mem _ hk1, hk2⟩
      · rintro (hk | ⟨hk1, hk2⟩)
        · exact Or.inl (Or.inl hk)
        · rcases List.mem_cons.mp hk1 with h' | h'
          · exact Or.inl (Or.inr h')
          · exact Or.inr ⟨h', hk2⟩
    · rw [if_neg hc] at h
      cases hDT : DEEPL_TARGETS.lookup c with
      | none =>
        simp only [hDT] at h
        have := ih _ _ _ _ _ h k
        rw [this]
        constructor
        · rintro (hk | ⟨hk1, hk2⟩)
          · exact Or.inl hk
          · exact Or.inr ⟨List.mem_cons_of_mem _ hk1, hk2⟩
        · rintro (hk | ⟨hk1, hk2⟩)
          · exact Or.inl hk
          · rcases List.mem_cons.mp hk1 with h' | h'
            · subst h'
              rcases hk2 with h'' | h''
              · exact absurd h'' hc
              · simp only [hDT] at h''
                simp at h''
            · exact Or.inr ⟨h', hk2⟩
      | some dt =>
        simp only [hDT] at h
        cases hp : p text (DEEPL_TARGETS.lookup d) dt with
        | ok t =>
          simp only [hp] at h
          have := ih _ _ _ _ _ h k
          rw [this, lookup_append_isSome, lookup_singleton_isSome]
          constructor
          · rintro ((hk | hk) | ⟨hk1, hk2⟩)
            · exact Or.inl hk
            · subst hk
              exact Or.inr ⟨List.mem_cons_self _ _, Or.inr (by rw [hDT]; simp)⟩
            · exact Or.inr ⟨List.mem_cons_of_mem _ hk1, hk2⟩
          · rintro (hk | ⟨hk1, hk2⟩)
            · exact Or.inl (Or.inl hk)
            · rcases List.mem_cons.mp hk1 with h' | h'
              · exact Or.inl (Or.inr h')
              · exact Or.inr ⟨h', hk2⟩
        | error e =>
          simp only [hp] at h
          simp at h

theorem translateLoop_calls_ne_detected (p : Provider) (text d : String) (l : List String) :
    ∀ acc cs r s cs', translateLoop p text d l acc cs = (r, s, cs') →
      (∀ call ∈ cs, ProviderCall.targetCode call ≠ d) →
      ∀ call ∈ cs', ProviderCall.targetCode call ≠ d := by
  induction l with
  | nil =>
    intro acc cs r s cs' h hcs
    simp [translateLoop] at h
    rw [← h.2.2]
    exact hcs
  | cons c rest ih =>
    intro acc cs r s cs' h hcs
    simp only [translateLoop] at h
    by_cases hc : c = d
    · rw [if_pos hc] at h
      exact ih _ _ _ _ _ h hcs
    · rw [if_neg hc] at h
      cases hDT : DEEPL_TARGETS.lookup c with
      | none =>
        simp only [hDT] at h
        exact ih _ _ _ _ _ h hcs
      | some dt =>
        simp only [hDT] at h
        cases hp : p text (DEEPL_TARGETS.lookup d) dt with
        | ok t =>
          simp only [hp] at h
          refine ih _ _ _ _ _ h ?_
          intro call hcall
          rcases List.mem_append.mp hcall with h' | h'
          · exact hcs _ h'
          · rcases List.mem_singleton.mp h' with rfl
            exact hc
        | error e =>
          simp only [hp] at h
          simp at h
          rw [← h.2.2]
          intro call hcall
          rcases List.mem_append.mp hcall with h' | h'
          · exact hcs _ h'
          · rcases List.mem_singleton.mp h' with rfl
            exact hc

theorem translateLoop_some_calls_ok (p : Provider) (text d : String) (l : List String) :
    ∀ acc cs r s cs', translateLoop p text d l acc cs = (some r, s, cs') →
      (∀ call ∈ cs, ∀ e, p (ProviderCall.text call) (ProviderCall.sourceLang call)
        (ProviderCall.targetLang call) ≠ Except.error e) →
      ∀ call ∈ cs', ∀ e, p (ProviderCall.text call) (ProviderCall.sourceLang call)
        (ProviderCall.targetLang call) ≠ Except.error e := by
  induction l with
  | nil =>
    intro acc cs r s cs' h hcs
    simp [translateLoop] at h
    rw [← h.2.2]
    exact hcs
  | cons c rest ih =>
    intro acc cs r s cs' h hcs
    simp only [translateLoop] at h
    by_cases hc : c = d
    · rw [if_pos hc] at h
      exact ih _ _ _ _ _ h hcs
    · rw [if_neg hc] at h
      cases hDT : DEEPL_TARGETS.lookup c with
      | none =>
        simp only [hDT] at h
        exact ih _ _ _ _ _ h hcs
      | some dt =>
        simp only [hDT] at h
        cases hp : p text (DEEPL_TARGETS.lookup d) dt with
        | ok t =>
          simp only [hp] at h
          refine ih _ _ _ _ _ h ?_
          intro call hcall
          rcases List.mem_append.mp hcall with h' | h'
          · exact hcs _ h'
          · rcases List.mem_singleton.mp h' with rfl
            intro e he
            simp only [hp] at he
            cases he
        | error e =>
          simp only [hp] at h
          simp at h

theorem translateLoop_none_msg (p : Provider) (text d : String) (l : List String) :
    ∀ acc cs s cs', translateLoop p text d l acc cs = (none, s, cs') →
      ∃ e, s = providerErrorMessage e := by
  induction l with
  | nil =>
    intro acc cs s cs' h
    simp [translateLoop] at h
  | cons c rest ih =>
    intro acc cs s cs' h
    simp only [translateLoop] at h
    by_cases hc : c = d
    · rw [if_pos hc] at h
      exact ih _ _ _ _ h
    · rw [if_neg hc] at h
      cases hDT : DEEPL_TARGETS.lookup c with
      | none =>
        simp only [hDT] at h
        exact ih _ _ _ _ h
      | some dt =>
        simp only [hDT] at h
        cases hp : p text (DEEPL_TARGETS.lookup d) dt with
        | ok t =>
          simp only [hp] at h
          exact ih _ _ _ _ h
        | error e =>
          simp only [hp] at h
          simp at h
          exact ⟨e, h.1.symm⟩

/-! ### Unfolding lemmas for `translate_message` -/

theorem translate_message_unsupported (p : Provider) (detect : Detector)
    (order : List String) (text : String)
    (h : (TARGET_LANGUAGES.lookup (detectedLang detect text)).isSome = false) :
    translate_message (some p) detect order text =
      ⟨none, "エラー: 検出された言語 (" ++ detectedLang detect text ++ ") はサポートされていません。",
        true, []⟩ := by
  simp [translate_message, h]

theorem translate_message_supported (p : Provider) (detect : Detector)
    (order : List String) (text : String)
    (h : (TARGET_LANGUAGES.lookup (detectedLang detect text)).isSome = true) :
    translate_message (some p) detect order text =
      ⟨(translateLoop p text (detectedLang detect text) order [] []).1,
        (translateLoop p text (detectedLang detect text) order [] []).2.1, true,
        (translateLoop p text (detectedLang detect text) order [] []).2.2⟩ := by
  simp [translate_message, h]

theorem translate_message_some_parts (p : Provider) (detect : Detector)
    (order : List String) (text : String) (m : List (String × String))
    (hm : (translate_message (some p) detect order text).result = some m) :
    (TARGET_LANGUAGES.lookup (detectedLang detect text)).isSome = true ∧
      translateLoop p text (detectedLang detect text) order [] [] =
        (some m, (translate_message (some p) detect order text).second,
          (translate_message (some p) detect order text).providerCalls) := by
  cases hts : (TARGET_LANGUAGES.lookup (detectedLang detect text)).isSome with
  | false =>
    rw [translate_message_unsupported p detect order text hts] at hm
    cases hm
  | true =>
    refine ⟨rfl, ?_⟩
    rw [translate_message_supported p detect order text hts] at hm ⊢
    simp only at hm ⊢
    rw [← hm]

/-! ### String-prefix helper lemmas -/

theorem isPrefixOf_append_of (pre a b : List Char) (h : pre.isPrefixOf a = true) :
    pre.isPrefixOf (a ++ b) = true := by
  have h' : pre <+: a := List.isPrefixOf_iff_prefix.mp h
  exact List.isPrefixOf_iff_prefix.mpr (h'.trans (List.prefix_append a b))

theorem strStartsWith_append (a b pre : String) (h : strStartsWith a pre = true) :
    strStartsWith (a ++ b) pre = true := by
  unfold strStartsWith at h ⊢
  rw [String.data_append]
  exact isPrefixOf_append_of _ _ _ h

/-! ### Claim theorems -/

/-- C1: whenever `translate_message` returns a result mapping and the detected
source code is among the processed codes, the entry of the mapping for the detected
code is the original input text verbatim, and no provider call was made for
that code (its `target_code` never reaches `translate_text`). -/
theorem C1_detected_code_maps_to_original (p : Provider) (detect : Detector)
    (order : List String) (text : String) (m : List (String × String))
    (hmem : detectedLang detect text ∈ order)
    (hres : (translate_message (some p) detect order text).result = some m) :
    m.lookup (detectedLang detect text) = some text ∧
      ∀ call ∈ (translate_message (some p) detect order text).providerCalls,
        ProviderCall.targetCode call ≠ detectedLang detect text := by
  obtain ⟨hts, hloop⟩ := translate_message_some_parts p detect order text m hres
  constructor
  · exact translateLoop_detected_entry p text _ order _ _ _ _ _ hloop rfl hmem
  · exact translateLoop_calls_ne_detected p text _ order _ _ _ _ _ hloop (by simp)

/-- Witness for C1: Japanese input translated to English; the detected code
`"ja"` maps back to the original text and only `"en"` was sent to the
provider. -/
theorem C1_witness :
    ([("en", "TX"), ("ja", "こんにちは")] : List (String × String)).lookup "ja" =
        some "こんにちは" ∧
      ∀ call ∈ (translate_message (some okProvider) jaDetect ["en", "ja"] "こんにちは").providerCalls,
        ProviderCall.targetCode call ≠ "ja" :=
  C1_detected_code_maps_to_original okProvider jaDetect ["en", "ja"] "こんにちは"
    [("en", "TX"), ("ja", "こんにちは")] (by decide) (by decide)

/-- C2: whenever `translate_message` returns a result mapping, the keys of the mapping are exactly `(target_langs ∪ {detected}) ∩ TARGET_LANGUAGES`, for every
enumeration `order` of the Python set `final_lang_codes`. -/
theorem C2_result_keys (p : Provider) (detect : Detector) (order : List String)
    (text : String) (target_langs : List String) (m : List (String × String))
    (henum : EnumeratesWorkingSet order target_langs (detectedLang detect text))
    (hres : (translate_message (some p) detect order text).result = some m) :
    ∀ k, (m.lookup k).isSome = true ↔
      ((k ∈ target_langs ∨ k = detectedLang detect text) ∧
        (TARGET_LANGUAGES.lookup k).isSome = true) := by
  obtain ⟨hts, hloop⟩ := translate_message_some_parts p detect order text m hres
  intro k
  obtain ⟨hnd, h1, h2, h3⟩ := henum
  rw [translateLoop_some_keys p text _ order _ _ _ _ _ hloop k]
  constructor
  · rintro (habs | ⟨hk1, hk2⟩)
    · simp [List.lookup] at habs
    · refine ⟨h1 k hk1, ?_⟩
      rcases hk2 with rfl | hdt
      · exact hts
      · exact (lookup_DT_eq_lookup_TL_isSome k).mp hdt
  · rintro ⟨hk1, hk2⟩
    refine Or.inr ⟨?_, ?_⟩
    · rcases hk1 with hk | rfl
      · exact h2 k hk
      · exact h3
    · by_cases hkd : k = detectedLang detect text
      · exact Or.inl hkd
      · exact Or.inr ((lookup_DT_eq_lookup_TL_isSome k).mpr hk2)

/-- Witness for C2: target selection `["fr", "en"]` contains the non-catalog
code `"fr"`, which is absent from the result keys, instantiated at `k = "fr"`. -/
theorem C2_witness :
    (([("en", "TX"), ("ja", "hi")] : List (String × String)).lookup "fr").isSome = true ↔
      (("fr" ∈ ["fr", "en"] ∨ "fr" = "ja") ∧ (TARGET_LANGUAGES.lookup "fr").isSome = true) :=
  C2_result_keys okProvider jaDetect ["fr", "en", "ja"] "hi" ["fr", "en"]
    [("en", "TX"), ("ja", "hi")] (by unfold EnumeratesWorkingSet; decide) (by decide) "fr"

/-- C3: if any provider call of the request raised, `translate_message`
returns `None` and an error reason `providerErrorMessage e`, which carries the
detail of the raised error as a suffix; no partial mapping is ever returned. -/
theorem C3_provider_failure_aborts (p : Provider) (detect : Detector)
    (order : List String) (text : String)
    (hfail : ∃ call ∈ (translate_message (some p) detect order text).providerCalls,
      ∃ e, p (ProviderCall.text call) (ProviderCall.sourceLang call)
        (ProviderCall.targetLang call) = Except.error e) :
    (translate_message (some p) detect order text).result = none ∧
      ∃ e, (translate_message (some p) detect order text).second = providerErrorMessage e ∧
        ∃ s, (translate_message (some p) detect order text).second =
          s ++ ProviderError.detail e := by
  cases hts : (TARGET_LANGUAGES.lookup (detectedLang detect text)).isSome with
  | false =>
    rw [translate_message_unsupported p detect order text hts] at hfail
    simp at hfail
  | true =>
    rcases htl : translateLoop p text (detectedLang detect text) order [] [] with ⟨r1, r2, r3⟩
    rw [translate_message_supported p detect order text hts, htl] at hfail ⊢
    simp only at hfail ⊢
    cases r1 with
    | some res =>
      exfalso
      obtain ⟨call, hcall, e, he⟩ := hfail
      exact translateLoop_some_calls_ok p text _ order _ _ _ _ _ htl (by simp) call hcall e he
    | none =>
      obtain ⟨e, he⟩ := translateLoop_none_msg p text _ order _ _ _ _ htl
      subst he
      refine ⟨rfl, e, rfl, ?_⟩
      cases hd : e.isDeepL with
      | true =>
        exact ⟨"エラー: DeepL翻訳中に問題が発生しました - ", by simp [providerErrorMessage, hd]⟩
      | false =>
        exact ⟨"エラー: 翻訳処理中に予期せぬエラーが発生しました - ", by simp [providerErrorMessage, hd]⟩

/-- Witness for C3: a provider that raises on its single call; the operation
returns `None` with the DeepL error message carrying the detail `"boom"`. -/
theorem C3_witness :
    (translate_message (some failProvider) jaDetect ["en", "ja"] "hi").result = none ∧
      ∃ e, (translate_message (some failProvider) jaDetect ["en", "ja"] "hi").second =
          providerErrorMessage e ∧
        ∃ s, (translate_message (some failProvider) jaDetect ["en", "ja"] "hi").second =
          s ++ ProviderError.detail e :=
  C3_provider_failure_aborts failProvider jaDetect ["en", "ja"] "hi"
    ⟨⟨"hi", some "JA", "en", "EN-US"⟩, by decide, ⟨true, "boom"⟩, rfl⟩

/-- C4 counterexample: the detector raises on `"xx"`, yet `translate_message`
does not fail — it silently defaults the detected language to `"ja"`
(line 63) and returns a full result mapping with second component `"ja"`,
not a detection-failure reason. -/
theorem C4_counterexample :
    noDetect "xx" = none ∧
      (translate_message (some okProvider) noDetect ["en", "ja"] "xx").result =
        some [("en", "TX"), ("ja", "xx")] ∧
      (translate_message (some okProvider) noDetect ["en", "ja"] "xx").second = "ja" :=
  ⟨rfl, by decide, by decide⟩

/-- C4 amended: when the Detector raises, `translate_message` does not fail;
it behaves exactly as if the Detector had reported `"ja"` and proceeds to
translate. -/
theorem C4_amended_detector_failure_defaults_to_ja (translator : Option Provider)
    (detect : Detector) (order : List String) (text : String)
    (h : detect text = none) :
    translate_message translator detect order text =
      translate_message translator (fun _ => some "ja") order text := by
  cases translator with
  | none => rfl
  | some p =>
    simp only [translate_message, detectedLang, h, Option.getD_none, Option.getD_some]

/-- Witness for the amended C4 at the failing detector and input `"xx"`. -/
theorem C4_witness :
    noDetect "xx" = none ∧
      translate_message (some okProvider) noDetect ["en", "ja"] "xx" =
        translate_message (some okProvider) (fun _ => some "ja") ["en", "ja"] "xx" :=
  ⟨rfl,
    C4_amended_detector_failure_defaults_to_ja (some okProvider) noDetect ["en", "ja"] "xx" rfl⟩

/-- C5 counterexample: the detector reports the Chinese variant code
`"zh-cn"`; instead of normalizing it to the catalog code `"zh"`,
`translate_message` rejects the request as unsupported. -/
theorem C5_counterexample :
    zhcnDetect "你好" = some "zh-cn" ∧
      (translate_message (some okProvider) zhcnDetect ["zh", "ja"] "你好").result = none ∧
      (translate_message (some okProvider) zhcnDetect ["zh", "ja"] "你好").second =
        "エラー: 検出された言語 (zh-cn) はサポートされていません。" :=
  ⟨rfl, by decide, by decide⟩

/-- C5 amended: no normalization table exists; any detected code outside
`TARGET_LANGUAGES` — dialect variants such as `"zh-cn"` included — makes
`translate_message` fail with the unsupported-language error naming the raw
detected code. -/
theorem C5_amended_no_normalization (p : Provider) (detect : Detector)
    (order : List String) (text d : String)
    (hdet : detect text = some d) (hns : TARGET_LANGUAGES.lookup d = none) :
    (translate_message (some p) detect order text).result = none ∧
      (translate_message (some p) detect order text).second =
        "エラー: 検出された言語 (" ++ d ++ ") はサポートされていません。" := by
  have hd : detectedLang detect text = d := by simp [detectedLang, hdet]
  have h : (TARGET_LANGUAGES.lookup (detectedLang detect text)).isSome = false := by
    rw [hd, hns]; rfl
  rw [translate_message_unsupported p detect order text h]
  exact ⟨rfl, by simp [hd]⟩

/-- Witness for the amended C5 at the `"zh-cn"`-reporting detector. -/
theorem C5_witness :
    (translate_message (some okProvider) zhcnDetect ["ja"] "你好").result = none ∧
      (translate_message (some okProvider) zhcnDetect ["ja"] "你好").second =
        "エラー: 検出された言語 (zh-cn) はサポートされていません。" :=
  C5_amended_no_normalization okProvider zhcnDetect ["ja"] "你好" "zh-cn" rfl (by decide)

/-- C6: with the DeepL client uninitialized (`translator is None`), every
request returns `None` with the fixed configuration-error message, and the
Detector is never invoked. -/
theorem C6_uninitialized_provider_short_circuit (detect : Detector) (order : List String)
    (text : String) :
    translate_message none detect order text =
      ⟨none, "エラー: DeepL API認証キーが正しく設定されていません。", false, []⟩ := rfl

/-- C7 counterexample: whitespace-only input with a non-empty target
selection: the handler sets no error message at all (it silently re-renders),
contradicting the claimed input-error message; no collaborator is called. -/
theorem C7_counterexample :
    (indexPost (some okProvider) jaDetect OUTPUT_ORDER (some "   ") ["en"]).error_message =
        none ∧
      (indexPost (some okProvider) jaDetect OUTPUT_ORDER (some "   ") ["en"]).detectorCalled =
        false ∧
      (indexPost (some okProvider) jaDetect OUTPUT_ORDER (some "   ") ["en"]).providerCalls =
        [] :=
  ⟨by decide, by decide, by decide⟩

/-- C7 amended: on empty or whitespace-only input with a non-empty target
selection the handler calls neither the Detector nor the Provider, but it also
produces no error message — all result fields stay at their initial values. -/
theorem C7_amended_blank_input_is_silent (translator : Option Provider) (detect : Detector)
    (order : List String) (input_text : Option String) (target_langs : List String)
    (hne : target_langs ≠ [])
    (hblank : input_text = none ∨ ∃ t, input_text = some t ∧ pyStrip t = "") :
    (indexPost translator detect order input_text target_langs).error_message = none ∧
      (indexPost translator detect order input_text target_langs).results = none ∧
      (indexPost translator detect order input_text target_langs).detectorCalled = false ∧
      (indexPost translator detect order input_text target_langs).providerCalls = [] ∧
      (indexPost translator detect order input_text target_langs).fullOutput = "" := by
  have hisEmpty : target_langs.isEmpty = false := by
    cases target_langs with
    | nil => exact absurd rfl hne
    | cons a l => rfl
  have htruthy : truthyText input_text = false := by
    rcases hblank with rfl | ⟨t, rfl, ht⟩
    · rfl
    · simp [truthyText, ht]
  simp [indexPost, hisEmpty, htruthy]

/-- Witness for the amended C7 at a tab-and-space input. -/
theorem C7_witness :
    (indexPost (some failProvider) jaDetect OUTPUT_ORDER (some " 	 ") ["zh"]).error_message =
        none ∧
      (indexPost (some failProvider) jaDetect OUTPUT_ORDER (some " 	 ") ["zh"]).results = none ∧
      (indexPost (some failProvider) jaDetect OUTPUT_ORDER (some " 	 ") ["zh"]).detectorCalled =
        false ∧
      (indexPost (some failProvider) jaDetect OUTPUT_ORDER (some " 	 ") ["zh"]).providerCalls =
        [] ∧
      (indexPost (some failProvider) jaDetect OUTPUT_ORDER (some " 	 ") ["zh"]).fullOutput =
        "" :=
  C7_amended_blank_input_is_silent (some failProvider) jaDetect OUTPUT_ORDER (some " 	 ")
    ["zh"] (by decide) (Or.inr ⟨" 	 ", rfl, by decide⟩)

/-- C8 counterexample: with no target selected, `translate_message` returns a
singleton mapping carrying the original text under the detected code — not the
empty mapping the claim states. -/
theorem C8_counterexample :
    (translate_message (some okProvider) jaDetect ["ja"] "hello").result =
        some [("ja", "hello")] ∧
      some [("ja", "hello")] ≠ (some [] : Option (List (String × String))) :=
  ⟨by decide, by decide⟩

theorem order_singleton_of_enum_empty (order : List String) (d : String)
    (h : EnumeratesWorkingSet order [] d) : order = [d] := by
  obtain ⟨hnd, h1, h2, h3⟩ := h
  cases order with
  | nil => cases h3
  | cons a l =>
    have ha : a = d := by
      rcases h1 a (List.mem_cons_self a l) with h' | h'
      · cases h'
      · exact h'
    subst ha
    cases l with
    | nil => rfl
    | cons b m =>
      have hb : b = a := by
        rcases h1 b (List.mem_cons_of_mem _ (List.mem_cons_self b m)) with h' | h'
        · cases h'
        · exact h'
      subst hb
      exact absurd (List.mem_cons_self b m) (List.nodup_cons.mp hnd).1

/-- C8 amended: invoked with an empty target set, `translate_message` never
crashes and never returns the empty mapping.  In every case it either fails as
usual — `None` with an error reason, when the client is uninitialized or the
detected code is outside the catalog — or succeeds with a mapping holding
exactly one entry, the detected code bound to the original input text. -/
theorem C8_amended_empty_targets_no_empty_mapping (translator : Option Provider)
    (detect : Detector) (order : List String) (text : String)
    (henum : EnumeratesWorkingSet order [] (detectedLang detect text)) :
    ((translate_message translator detect order text).result =
        some [(detectedLang detect text, text)] ∨
      (translate_message translator detect order text).result = none) ∧
      (translate_message translator detect order text).result ≠ some [] := by
  have hmain : (translate_message translator detect order text).result =
      some [(detectedLang detect text, text)] ∨
      (translate_message translator detect order text).result = none := by
    cases translator with
    | none => exact Or.inr rfl
    | some p =>
      cases hts : (TARGET_LANGUAGES.lookup (detectedLang detect text)).isSome with
      | false =>
        rw [translate_message_unsupported p detect order text hts]
        exact Or.inr rfl
      | true =>
        have hord : order = [detectedLang detect text] :=
          order_singleton_of_enum_empty order (detectedLang detect text) henum
        subst hord
        rw [translate_message_supported p detect [detectedLang detect text] text hts]
        exact Or.inl (by simp [translateLoop])
  refine ⟨hmain, ?_⟩
  rcases hmain with h | h <;> rw [h] <;> simp

/-- Witness for the amended C8: no targets, detection succeeding with `"ja"` —
the result is the singleton `{"ja": "hola"}`, not the empty mapping. -/
theorem C8_witness :
    ((translate_message (some okProvider) jaDetect ["ja"] "hola").result =
        some [("ja", "hola")] ∨
      (translate_message (some okProvider) jaDetect ["ja"] "hola").result = none) ∧
      (translate_message (some okProvider) jaDetect ["ja"] "hola").result ≠ some [] :=
  C8_amended_empty_targets_no_empty_mapping (some okProvider) jaDetect ["ja"] "hola"
    (by unfold EnumeratesWorkingSet; decide)

theorem labelOf_eq (c detected : String) :
    ((TARGET_LANGUAGES.lookup c).getD "" ++ (if c = detected then " (原文)" else "") ++ ":") =
      (if c = detected then (TARGET_LANGUAGES.lookup c).getD "" ++ " (原文):"
       else (TARGET_LANGUAGES.lookup c).getD "" ++ ":") := by
  by_cases hc : c = detected
  · simp only [if_pos hc, String.append_assoc]
    rfl
  · simp only [if_neg hc, String.append_empty]

theorem buildOutputLines_eq (results : List (String × String)) (detected : String)
    (l : List String) :
    ∀ acc, buildOutputLines results detected l acc =
      acc ++ l.filterMap (fun c =>
        (results.lookup c).map (fun t =>
          ((TARGET_LANGUAGES.lookup c).getD "" ++ (if c = detected then " (原文)" else "") ++ ":")
            ++ "\n" ++ t)) := by
  induction l with
  | nil => intro acc; simp [buildOutputLines]
  | cons c rest ih =>
    intro acc
    simp only [buildOutputLines]
    cases hr : results.lookup c with
    | none =>
      simp only [hr]
      rw [ih]
      simp [List.filterMap_cons, hr]
    | some t =>
      simp only [hr]
      rw [ih]
      simp only [List.filterMap_cons, hr, Option.map_some, labelOf_eq]
      simp [List.append_assoc]

/-- C9: as assembled by the handler, the copy block walks the fixed display
order `OUTPUT_ORDER`, skips codes absent from the result mapping, emits
`"<display label>[ (原文)]:\n<text>"` per present code with the original
marker exactly on the detected code, joins entries by a single newline — and
is the empty string for the empty mapping. -/
theorem C9_copy_block_assembly (results : List (String × String)) (detected : String) :
    (full_output results detected =
      String.intercalate "\n" (OUTPUT_ORDER.filterMap (fun c =>
        (results.lookup c).map (fun t =>
          ((TARGET_LANGUAGES.lookup c).getD "" ++ (if c = detected then " (原文)" else "") ++ ":")
            ++ "\n" ++ t)))) ∧
      full_output [] detected = "" := by
  constructor
  · rw [full_output, buildOutputLines_eq]
    simp
  · rfl

/-- C10: the second component of `translate_message` is a catalog code
whenever a mapping is returned, and a string starting with `"エラー:"` whenever
`None` is returned; no catalog code starts with `"エラー:"`, so the prefix
test at line 142 cleanly separates the two cases. -/
theorem C10_second_component_classification (translator : Option Provider) (detect : Detector)
    (order : List String) (text : String) :
    ((∃ m, (translate_message translator detect order text).result = some m) →
        (TARGET_LANGUAGES.lookup
          (translate_message translator detect order text).second).isSome = true) ∧
      ((translate_message translator detect order text).result = none →
        strStartsWith (translate_message translator detect order text).second "エラー:" = true) ∧
      ∀ c, (TARGET_LANGUAGES.lookup c).isSome = true → strStartsWith c "エラー:" = false := by
  refine ⟨?_, ?_, ?_⟩
  · rintro ⟨m, hm⟩
    cases translator with
    | none => cases hm
    | some p =>
      obtain ⟨hts, hloop⟩ := translate_message_some_parts p detect order text m hm
      rw [translateLoop_some_second p text _ order _ _ _ _ _ hloop]
      exact hts
  · intro hnone
    cases translator with
    | none => rfl
    | some p =>
      cases hts : (TARGET_LANGUAGES.lookup (detectedLang detect text)).isSome with
      | false =>
        rw [translate_message_unsupported p detect order text hts]
        exact strStartsWith_append _ _ _ (strStartsWith_append _ _ _ (by decide))
      | true =>
        rcases htl : translateLoop p text (detectedLang detect text) order [] []
          with ⟨r1, r2, r3⟩
        rw [translate_message_supported p detect order text hts, htl] at hnone ⊢
        simp only at hnone ⊢
        subst hnone
        obtain ⟨e, he⟩ := translateLoop_none_msg p text _ order _ _ _ _ htl
        subst he
        cases hd : e.isDeepL with
        | true =>
          simp only [providerErrorMessage, hd, if_pos]
          exact strStartsWith_append _ _ _ (by decide)
        | false =>
          simp only [providerErrorMessage, hd, Bool.false_eq_true, if_false]
          exact strStartsWith_append _ _ _ (by decide)
  · intro c hc
    rcases lookup_TL_cases c hc with rfl | rfl | rfl | rfl | rfl <;> decide
